import Mathlib

/-!
Verification of the Mandelbrot renderer and its viewport controller.

The development shallowly embeds the escape-time evaluator, colorer and frame
renderer of the web worker, the pixel/complex coordinate maps, the viewport
controller (zoom-to-point, pan, adaptive iteration budget) and the render-id
supersession mechanism of the canvas component.

JavaScript numbers are modelled by exact arithmetic: every IEEE double is a
rational, so the purely arithmetic parts of the code (orbit iteration, interior
tests, coordinate maps, clamping) are embedded over `ℚ`, and the transcendental
parts (`Math.log`, `Math.sin`, `Math.pow`, `Math.log10`) over `ℝ`.
-/

/-- JavaScript truncation toward zero (the `%` operator truncates the quotient). -/
noncomputable def jsTrunc (x : ℝ) : ℤ := if x < 0 then ⌈x⌉ else ⌊x⌋

/-- JavaScript remainder `x % y` (truncated-division remainder). -/
noncomputable def jsMod (x y : ℝ) : ℝ := x - y * (jsTrunc (x / y) : ℝ)

/-- JavaScript `Math.round`: round half toward positive infinity. -/
noncomputable def jsRound (x : ℝ) : ℤ := ⌊x + 1/2⌋

/-- Clamping of a byte value as performed by an assignment into a
`Uint8ClampedArray` (the assigned values are already integers here). -/
def clampByte (z : ℤ) : ℤ := max 0 (min 255 z)

/-- Iterate a loop body over indices `0, 1, …, n-1` in increasing order
(the index `n-1` is applied last, as in a `for` loop). -/
def foldRange {α : Type} (f : ℕ → α → α) : ℕ → α → α
  | 0, a => a
  | n + 1, a => f n (foldRange f n a)

namespace Mandelbrot

/-! Embedding of the worker `mandelbrot.worker.ts`: interior-region tests,
escape-time loop with periodicity detection, smooth coloring, rainbow colorer,
and the frame renderer with its vertical-symmetry optimization. -/

/-- Membership test for the main cardioid, from `inCardioid`:
`q * (q + (x - 0.25)) <= 0.25 * y * y` where `q = (x-0.25)^2 + y^2`.
The float literals `0.25` are the exact rationals `1/4`. -/
def inCardioid (x y : ℚ) : Prop :=
  ((x - 1/4) * (x - 1/4) + y * y) * (((x - 1/4) * (x - 1/4) + y * y) + (x - 1/4))
    ≤ 1/4 * (y * y)

instance (x y : ℚ) : Decidable (inCardioid x y) := by
  unfold inCardioid; infer_instance

/-- Membership test for the period-2 bulb, from `inPeriod2Bulb`:
`(x+1)^2 + y^2 <= 0.0625` (the float literal `0.0625` is exactly `1/16`). -/
def inPeriod2Bulb (x y : ℚ) : Prop :=
  (x + 1) * (x + 1) + y * y ≤ 1/16

instance (x y : ℚ) : Decidable (inPeriod2Bulb x y) := by
  unfold inPeriod2Bulb; infer_instance

/-- The mutable locals of the `while` loop of `calculateMandelbrot`. -/
structure LoopState where
  zReal : ℚ
  zImag : ℚ
  oldReal : ℚ
  oldImag : ℚ
  period : ℕ
  iteration : ℕ
  deriving DecidableEq, Repr

/-- Initial loop state: `z = 0`, periodicity snapshot `(0, 0)`, counters `0`. -/
def initState : LoopState := ⟨0, 0, 0, 0, 0, 0⟩

/-- Result of one pass of the loop body: either the loop continues with an
updated state, or the function returns (escape with the squared magnitude at
the escape check, or a detected cycle meaning the point is in the set). -/
inductive StepRes where
  | continueWith (s : LoopState) : StepRes
  | escapedAt (iteration : ℕ) (zNormSq : ℚ) : StepRes
  | cycleFound : StepRes
  deriving DecidableEq, Repr

/-- One pass of the `while` body of `calculateMandelbrot` (worker version):
escape check on the current `z`, then `z ← z² + c`, then the exact-equality
periodicity check against the snapshot, then the period counter update
(snapshot refresh once the counter exceeds 20). -/
def loopStep (cReal cImag : ℚ) (s : LoopState) : StepRes :=
  if 4 < s.zReal * s.zReal + s.zImag * s.zImag then
    .escapedAt s.iteration (s.zReal * s.zReal + s.zImag * s.zImag)
  else
    let newZReal := s.zReal * s.zReal - s.zImag * s.zImag + cReal
    let newZImag := 2 * s.zReal * s.zImag + cImag
    if newZReal = s.oldReal ∧ newZImag = s.oldImag then
      .cycleFound
    else if 20 < s.period + 1 then
      .continueWith ⟨newZReal, newZImag, newZReal, newZImag, 0, s.iteration + 1⟩
    else
      .continueWith ⟨newZReal, newZImag, s.oldReal, s.oldImag, s.period + 1,
        s.iteration + 1⟩

/-- Run the loop with the given fuel (the fuel is `maxIterations - iteration`,
so the guard `iteration < maxIterations` is the fuel reaching `0`).  Returns
`some (iteration, zNormSq)` on escape and `none` when the point is classified
as bounded (cycle detected or budget exhausted). -/
def loopGo (cReal cImag : ℚ) : ℕ → LoopState → Option (ℕ × ℚ)
  | 0, _ => none
  | fuel + 1, s =>
    match loopStep cReal cImag s with
    | .continueWith s' => loopGo cReal cImag fuel s'
    | .escapedAt i m => some (i, m)
    | .cycleFound => none

/-- The discrete part of `calculateMandelbrot`: interior shortcut, then the
escape loop.  `none` is the `Bounded` outcome (the source returns
`maxIterations`); `some (i, m)` is the `Escaped` outcome at iteration `i` with
squared magnitude `m` at the escape check. -/
def calcEscape (cReal cImag : ℚ) (maxIterations : ℕ) : Option (ℕ × ℚ) :=
  if inCardioid cReal cImag ∨ inPeriod2Bulb cReal cImag then none
  else loopGo cReal cImag maxIterations initState

/-- The smooth ("continuous") value returned on escape:
`iteration + 1 - log(log(|z|)) / log 2`, where `m = |z|²` at the escape check. -/
noncomputable def smoothValue (iteration : ℕ) (m : ℚ) : ℝ :=
  iteration + 1 - Real.log (Real.log (Real.sqrt (m : ℝ))) / Real.log 2

/-- The numeric return value of `calculateMandelbrot` in the worker: the smooth
escape value for escaping points, and `maxIterations` for bounded points. -/
noncomputable def calculateMandelbrot (cReal cImag : ℚ) (maxIterations : ℕ) : ℝ :=
  match calcEscape cReal cImag maxIterations with
  | some (i, m) => smoothValue i m
  | none => maxIterations

/-- The raw orbit `z_0 = 0`, `z_{n+1} = z_n² + c` (real and imaginary parts),
used to state what the loop's periodicity snapshot holds. -/
def zIter (cReal cImag : ℚ) : ℕ → ℚ × ℚ
  | 0 => (0, 0)
  | n + 1 =>
    ((zIter cReal cImag n).1 * (zIter cReal cImag n).1
       - (zIter cReal cImag n).2 * (zIter cReal cImag n).2 + cReal,
     2 * (zIter cReal cImag n).1 * (zIter cReal cImag n).2 + cImag)

/-- The loop state after `n` passes of the loop body, provided no pass returned
(`none` as soon as some earlier pass escaped or found a cycle). -/
def runContinue (cReal cImag : ℚ) : ℕ → Option LoopState
  | 0 => some initState
  | n + 1 =>
    match runContinue cReal cImag n with
    | some s =>
      match loopStep cReal cImag s with
      | .continueWith s' => some s'
      | _ => none
    | none => none

/-- The rainbow colorer `iterationToColor` of the worker: black for values at
or above the budget, otherwise a multi-hue HSL palette converted to RGB with
`Math.floor`.  Both arguments are JavaScript numbers, hence `ℝ`. -/
noncomputable def iterationToColor (iteration maxIterations : ℝ) : ℤ × ℤ × ℤ :=
  if maxIterations ≤ iteration then (0, 0, 0)
  else
    let t := iteration / maxIterations
    let hue := jsMod (3/5 + t * 5) 1
    let saturation := 4/5 + 1/5 * Real.sin (t * Real.pi * 8)
    let lightness := 3/20 + 11/20 * (1 - (1 - t) ^ ((2:ℝ)/5))
    let c := (1 - |2 * lightness - 1|) * saturation
    let x := c * (1 - |jsMod (hue * 6) 2 - 1|)
    let m := lightness - c / 2
    let h := hue * 6
    let rgb : ℝ × ℝ × ℝ :=
      if h < 1 then (c, x, 0)
      else if h < 2 then (x, c, 0)
      else if h < 3 then (0, c, x)
      else if h < 4 then (0, x, c)
      else if h < 5 then (x, 0, c)
      else (c, 0, x)
    (⌊(rgb.1 + m) * 255⌋, ⌊(rgb.2.1 + m) * 255⌋, ⌊(rgb.2.2 + m) * 255⌋)

/-- A pixel buffer: byte index to byte value (all cells start at `0`, as in a
fresh `Uint8ClampedArray`). -/
def Buffer : Type := ℕ → ℤ

/-- Write one RGBA pixel (alpha `255`) at byte offset `idx`; the clamped-array
store clamps each byte. -/
def writePixel (buf : Buffer) (idx : ℕ) (rgb : ℤ × ℤ × ℤ) : Buffer :=
  fun j =>
    if j = idx then clampByte rgb.1
    else if j = idx + 1 then clampByte rgb.2.1
    else if j = idx + 2 then clampByte rgb.2.2
    else if j = idx + 3 then clampByte 255
    else buf j

/-- The worker's `renderMandelbrot`: row/column scan with the vertical-symmetry
optimization.  When `|centerY| < 1e-10` only the rows below `ceil(height/2)`
are computed and each is also written to the mirror row `height-1-py` (except
the row `floor(height/2)`); `Math.ceil(height/2)` is `(height+1)/2` and
`Math.floor(height/2)` is `height/2` in natural division. -/
noncomputable def renderMandelbrot (width height : ℕ) (centerX centerY zoom : ℚ)
    (maxIterations : ℕ) : Buffer :=
  let scale : ℚ := 4 / (zoom * min (width : ℚ) (height : ℚ))
  let centerPixelY : ℚ := (height : ℚ) / 2
  let halfHeight : ℕ := if |centerY| < 1/10^10 then (height + 1) / 2 else height
  foldRange (fun py buf =>
    foldRange (fun px buf =>
      let re := centerX + ((px : ℚ) - (width : ℚ) / 2) * scale
      let im := centerY + ((py : ℚ) - centerPixelY) * scale
      let rgb := iterationToColor (calculateMandelbrot re im maxIterations)
        (maxIterations : ℝ)
      let buf' := writePixel buf ((py * width + px) * 4) rgb
      if |centerY| < 1/10^10 ∧ py ≠ height / 2 ∧ height - 1 - py < height then
        writePixel buf' (((height - 1 - py) * width + px) * 4) rgb
      else buf') width buf) halfHeight (fun _ => 0)

/-- Reference renderer for the symmetry-equivalence property: the same
per-pixel mapping, evaluator and colorer as `renderMandelbrot`, applied to
every row `0 … height-1` with no mirroring (the "unoptimized full scan"). -/
noncomputable def renderFullScan (width height : ℕ) (centerX centerY zoom : ℚ)
    (maxIterations : ℕ) : Buffer :=
  let scale : ℚ := 4 / (zoom * min (width : ℚ) (height : ℚ))
  let centerPixelY : ℚ := (height : ℚ) / 2
  foldRange (fun py buf =>
    foldRange (fun px buf =>
      let re := centerX + ((px : ℚ) - (width : ℚ) / 2) * scale
      let im := centerY + ((py : ℚ) - centerPixelY) * scale
      let rgb := iterationToColor (calculateMandelbrot re im maxIterations)
        (maxIterations : ℝ)
      writePixel buf ((py * width + px) * 4) rgb) width buf) height (fun _ => 0)

end Mandelbrot

namespace MandelbrotUtils

/-! Embedding of the utilities module (`Viewport`, `pixelToComplex`) and of the
inverse map `complexToPixel` of Scene 2. -/

/-- The `Viewport` interface: center, zoom and pixel dimensions. -/
structure Viewport where
  centerX : ℚ
  centerY : ℚ
  zoom : ℚ
  width : ℚ
  height : ℚ
  deriving DecidableEq

/-- Derived scale factor `4 / (zoom * min(width, height))`. -/
def Viewport.scale (v : Viewport) : ℚ := 4 / (v.zoom * min v.width v.height)

/-- The utilities module's `pixelToComplex`:
`(centerX + (px - width/2) * scale, centerY + (py - height/2) * scale)`. -/
def pixelToComplex (px py : ℚ) (v : Viewport) : ℚ × ℚ :=
  (v.centerX + (px - v.width / 2) * v.scale,
   v.centerY + (py - v.height / 2) * v.scale)

/-- The inverse map: `((re - centerX)/scale + width/2, (im - centerY)/scale +
height/2)`.  This is Scene 2's `complexToPixel` with the scene's constants
(`CENTER_X`, `CENTER_Y`, `ZOOM`, square `CANVAS_SIZE`, for which
`min width height = CANVAS_SIZE`) generalized to an arbitrary viewport. -/
def complexToPixel (z : ℚ × ℚ) (v : Viewport) : ℚ × ℚ :=
  ((z.1 - v.centerX) / v.scale + v.width / 2,
   (z.2 - v.centerY) / v.scale + v.height / 2)

end MandelbrotUtils

namespace Scene2

/-! Scene 2's fixed-viewport coordinate maps, with its literal constants
`CANVAS_SIZE = 800`, `CENTER_X = -0.6`, `CENTER_Y = 0`, `ZOOM = 1.3`. -/

def CANVAS_SIZE : ℚ := 800
def CENTER_X : ℚ := -3/5
def CENTER_Y : ℚ := 0
def ZOOM : ℚ := 13/10

/-- Scene 2's `pixelToComplex` with `scale = 4 / (ZOOM * CANVAS_SIZE)`. -/
def pixelToComplex (pixelX pixelY : ℚ) : ℚ × ℚ :=
  (CENTER_X + (pixelX - CANVAS_SIZE / 2) * (4 / (ZOOM * CANVAS_SIZE)),
   CENTER_Y + (pixelY - CANVAS_SIZE / 2) * (4 / (ZOOM * CANVAS_SIZE)))

/-- Scene 2's `complexToPixel`. -/
def complexToPixel (z : ℚ × ℚ) : ℚ × ℚ :=
  ((z.1 - CENTER_X) / (4 / (ZOOM * CANVAS_SIZE)) + CANVAS_SIZE / 2,
   (z.2 - CENTER_Y) / (4 / (ZOOM * CANVAS_SIZE)) + CANVAS_SIZE / 2)

end Scene2

namespace Scene1

/-! Embedding of Scene 1's viewport controller: `handleZoom` (zoom-to-point
with clamping and the adaptive iteration budget) and `handlePan`. -/

def CANVAS_WIDTH : ℚ := 1200
def CANVAS_HEIGHT : ℚ := 800
def MAX_ZOOM : ℚ := 10^12

/-- The controller state held in `stateRef` plus the `maxIterations` state. -/
structure ControllerState where
  centerX : ℚ
  centerY : ℚ
  zoom : ℚ
  maxIterations : ℤ
  deriving DecidableEq

/-- The adaptive iteration budget computed at the end of `handleZoom`:
`Math.round(Math.min(200 + Math.log10(newZoom) * 100, 2000) / 50) * 50`. -/
noncomputable def iterationBudget (newZoom : ℚ) : ℤ :=
  jsRound (min (200 + Real.logb 10 (newZoom : ℝ) * 100) 2000 / 50) * 50

/-- `handleZoom`: clamp the new zoom to `[0.5, MAX_ZOOM]`; if clamping leaves
the zoom unchanged do nothing; otherwise move the center so that the complex
point under the cursor pixel is preserved, and recompute the budget. -/
noncomputable def handleZoom (s : ControllerState) (pixelX pixelY zoomFactor : ℚ) :
    ControllerState :=
  let newZoom := max (1/2) (min (s.zoom * zoomFactor) MAX_ZOOM)
  if newZoom = s.zoom then s
  else
    let actualZoomFactor := newZoom / s.zoom
    let scale := 4 / (s.zoom * min CANVAS_WIDTH CANVAS_HEIGHT)
    let targetX := s.centerX + (pixelX - CANVAS_WIDTH / 2) * scale
    let targetY := s.centerY + (pixelY - CANVAS_HEIGHT / 2) * scale
    let offsetX := s.centerX - targetX
    let offsetY := s.centerY - targetY
    { centerX := targetX + offsetX / actualZoomFactor
      centerY := targetY + offsetY / actualZoomFactor
      zoom := newZoom
      maxIterations := iterationBudget newZoom }

/-- `handlePan`: convert the pixel delta to a complex delta with the current
scale and subtract it from the center; zoom and budget are not touched. -/
def handlePan (s : ControllerState) (deltaPixelX deltaPixelY : ℚ) :
    ControllerState :=
  let scale := 4 / (s.zoom * min CANVAS_WIDTH CANVAS_HEIGHT)
  { centerX := s.centerX - deltaPixelX * scale
    centerY := s.centerY - deltaPixelY * scale
    zoom := s.zoom
    maxIterations := s.maxIterations }

/-- The viewport Scene 1 passes to the canvas. -/
def toViewport (s : ControllerState) : MandelbrotUtils.Viewport :=
  ⟨s.centerX, s.centerY, s.zoom, CANVAS_WIDTH, CANVAS_HEIGHT⟩

end Scene1

namespace Canvas

/-! Embedding of the render mechanism of `MandelbrotCanvas`.  Each call to
`render()` takes `currentRenderId = ++renderIdRef.current`, registers a fresh
`handleMessage` listener on the worker (capturing `currentRenderId` in its
closure) and posts the request.  A worker result message carries only the
pixel buffer — no request id.  Every registered listener fires on every
message, in registration order: a listener whose captured id differs from
`renderIdRef.current` returns early and stays registered (the
`removeEventListener` call is only reached on the apply path); a listener
whose captured id equals the counter blits the arriving buffer and removes
itself. -/

/-- The payload posted to the worker for one render. -/
structure RenderRequest where
  width : ℕ
  height : ℕ
  centerX : ℚ
  centerY : ℚ
  zoom : ℚ
  maxIterations : ℕ
  deriving DecidableEq

/-- The canvas events: `render()` is called, or a worker result arrives.  The
`arrive` payload identifies the buffer by the request whose computation
produced it, but — as in the code — carries no request id. -/
inductive CanvasEvent where
  | issue (p : RenderRequest) : CanvasEvent
  | arrive (p : RenderRequest) : CanvasEvent
  deriving DecidableEq

/-- Canvas state: the `renderIdRef` counter, the captured ids of the message
listeners currently registered on the worker (in registration order), and the
displayed buffer (identified by the request that produced it). -/
structure CanvasState where
  renderId : ℕ
  handlers : List ℕ
  displayed : Option RenderRequest
  deriving DecidableEq

/-- Dispatch one worker message to every registered listener in order: a
listener with `capturedId ≠ renderId` returns early and stays registered; a
listener with `capturedId = renderId` applies the arriving buffer to the
display and unregisters itself.  Returns the remaining listeners and the
resulting display. -/
def deliver (renderId : ℕ) (p : RenderRequest) :
    List ℕ → Option RenderRequest → List ℕ × Option RenderRequest
  | [], d => ([], d)
  | h :: hs, d =>
    if h = renderId then
      deliver renderId p hs (some p)
    else
      ((h :: (deliver renderId p hs d).1), (deliver renderId p hs d).2)

/-- One event step: `issue` pre-increments the counter and registers a new
listener capturing the new id; `arrive` broadcasts the result to all
registered listeners. -/
def step (s : CanvasState) : CanvasEvent → CanvasState
  | .issue _ =>
    { renderId := s.renderId + 1
      handlers := s.handlers ++ [s.renderId + 1]
      displayed := s.displayed }
  | .arrive p =>
    { renderId := s.renderId
      handlers := (deliver s.renderId p s.handlers s.displayed).1
      displayed := (deliver s.renderId p s.handlers s.displayed).2 }

/-- Run an event trace. -/
def run (s : CanvasState) : List CanvasEvent → CanvasState
  | [] => s
  | e :: es => run (step s e) es

end Canvas

/-! ## Claim theorems -/

/-- C10: while dragging, a pan delta `(dx, dy)` moves the center to
`(centerX - dx*scale, centerY - dy*scale)` with
`scale = 4/(zoom*min(width,height))`, leaving `zoom` and `maxIterations`
exactly unchanged. -/
theorem handlePan_frame_effect (s : Scene1.ControllerState) (dx dy : ℚ) :
    (Scene1.handlePan s dx dy).centerX
      = s.centerX - dx * (4 / (s.zoom * min Scene1.CANVAS_WIDTH Scene1.CANVAS_HEIGHT))
    ∧ (Scene1.handlePan s dx dy).centerY
      = s.centerY - dy * (4 / (s.zoom * min Scene1.CANVAS_WIDTH Scene1.CANVAS_HEIGHT))
    ∧ (Scene1.handlePan s dx dy).zoom = s.zoom
    ∧ (Scene1.handlePan s dx dy).maxIterations = s.maxIterations :=
  ⟨rfl, rfl, rfl, rfl⟩

/-- C9: a zoom gesture whose clamped new zoom equals the current zoom is a
complete no-op: the controller state (center, zoom and iteration budget) is
returned exactly unchanged. -/
theorem handleZoom_noop (s : Scene1.ControllerState) (px py f : ℚ)
    (h : max (1/2) (min (s.zoom * f) Scene1.MAX_ZOOM) = s.zoom) :
    Scene1.handleZoom s px py f = s := by
  simp only [Scene1.handleZoom]
  rw [if_pos h]

/-- Witness for C9 at a concrete input: at the zoom cap `10^12`, a zoom-in by
factor `2` clamps back to `10^12` and the state is unchanged. -/
theorem handleZoom_noop_witness :
    max (1/2) (min ((10^12 : ℚ) * 2) Scene1.MAX_ZOOM) = (10^12 : ℚ)
    ∧ Scene1.handleZoom ⟨0, 0, 10^12, 200⟩ 0 0 2 = ⟨0, 0, 10^12, 200⟩ :=
  ⟨by norm_num [Scene1.MAX_ZOOM],
   handleZoom_noop ⟨0, 0, 10^12, 200⟩ 0 0 2 (by norm_num [Scene1.MAX_ZOOM])⟩

/-- C1: a zoom gesture at pixel `(px, py)` with clamped new zoom `z' ≠ z` sets
the new center to `target + (oldCenter - target) / (z'/z)` where `target` is
`pixelToComplex(px, py, old viewport)`; consequently the complex point under
the cursor pixel is the same before and after the zoom. -/
theorem handleZoom_zoom_to_point (s : Scene1.ControllerState) (px py f : ℚ)
    (hz : 0 < s.zoom)
    (hne : max (1/2) (min (s.zoom * f) Scene1.MAX_ZOOM) ≠ s.zoom) :
    (Scene1.handleZoom s px py f).zoom = max (1/2) (min (s.zoom * f) Scene1.MAX_ZOOM)
    ∧ (Scene1.handleZoom s px py f).centerX
        = (MandelbrotUtils.pixelToComplex px py (Scene1.toViewport s)).1
          + (s.centerX - (MandelbrotUtils.pixelToComplex px py (Scene1.toViewport s)).1)
            / (max (1/2) (min (s.zoom * f) Scene1.MAX_ZOOM) / s.zoom)
    ∧ (Scene1.handleZoom s px py f).centerY
        = (MandelbrotUtils.pixelToComplex px py (Scene1.toViewport s)).2
          + (s.centerY - (MandelbrotUtils.pixelToComplex px py (Scene1.toViewport s)).2)
            / (max (1/2) (min (s.zoom * f) Scene1.MAX_ZOOM) / s.zoom)
    ∧ MandelbrotUtils.pixelToComplex px py (Scene1.toViewport (Scene1.handleZoom s px py f))
        = MandelbrotUtils.pixelToComplex px py (Scene1.toViewport s) := by
  have hz' : (0:ℚ) < max (1/2) (min (s.zoom * f) Scene1.MAX_ZOOM) :=
    lt_of_lt_of_le (by norm_num) (le_max_left _ _)
  have hzne : s.zoom ≠ 0 := ne_of_gt hz
  have hz'ne : max (1/2) (min (s.zoom * f) Scene1.MAX_ZOOM) ≠ 0 := ne_of_gt hz'
  simp only [Scene1.handleZoom, Scene1.toViewport, MandelbrotUtils.pixelToComplex,
    MandelbrotUtils.Viewport.scale, Scene1.CANVAS_WIDTH, Scene1.CANVAS_HEIGHT]
  rw [if_neg hne]
  refine ⟨rfl, by ring, by ring, ?_⟩
  rw [Prod.mk.injEq]
  constructor
  · rw [show min (1200:ℚ) 800 = 800 by norm_num]
    field_simp
    ring
  · rw [show min (1200:ℚ) 800 = 800 by norm_num]
    field_simp
    ring

/-- Witness for C1 at a concrete input: starting state `(-1/2, 0, 1)`, zoom by
factor `2` at pixel `(300, 200)`. -/
theorem handleZoom_zoom_to_point_witness :
    (0:ℚ) < 1
    ∧ max (1/2) (min ((1:ℚ) * 2) Scene1.MAX_ZOOM) ≠ (1:ℚ)
    ∧ MandelbrotUtils.pixelToComplex 300 200
        (Scene1.toViewport (Scene1.handleZoom ⟨-1/2, 0, 1, 200⟩ 300 200 2))
      = MandelbrotUtils.pixelToComplex 300 200 (Scene1.toViewport ⟨-1/2, 0, 1, 200⟩) :=
  ⟨by norm_num, by norm_num [Scene1.MAX_ZOOM],
   (handleZoom_zoom_to_point ⟨-1/2, 0, 1, 200⟩ 300 200 2 (by norm_num)
     (by norm_num [Scene1.MAX_ZOOM])).2.2.2⟩

/-- C8: for every viewport with positive zoom and positive pixel dimensions,
`complexToPixel` is the exact inverse of `pixelToComplex` (exact equality in
exact arithmetic); the second conjunct is the round trip for Scene 2's
literal fixed-constant maps. -/
theorem pixel_complex_round_trip (px py : ℚ) (v : MandelbrotUtils.Viewport)
    (hz : 0 < v.zoom) (hw : 0 < v.width) (hh : 0 < v.height) :
    MandelbrotUtils.complexToPixel (MandelbrotUtils.pixelToComplex px py v) v = (px, py)
    ∧ ∀ qx qy : ℚ, Scene2.complexToPixel (Scene2.pixelToComplex qx qy) = (qx, qy) := by
  constructor
  · have hmin : (0:ℚ) < min v.width v.height := lt_min hw hh
    have hscale : v.scale ≠ 0 := by
      have : (0:ℚ) < v.scale := div_pos (by norm_num) (mul_pos hz hmin)
      exact ne_of_gt this
    simp only [MandelbrotUtils.complexToPixel, MandelbrotUtils.pixelToComplex,
      Prod.mk.injEq]
    constructor
    · field_simp
      ring
    · field_simp
      ring
  · intro qx qy
    simp only [Scene2.complexToPixel, Scene2.pixelToComplex, Scene2.CANVAS_SIZE,
      Scene2.CENTER_X, Scene2.CENTER_Y, Scene2.ZOOM]
    norm_num

/-- Witness for C8 at a concrete input: Scene 2's viewport
`(-3/5, 0, 13/10, 800 × 800)` and pixel `(100, 200)`. -/
theorem pixel_complex_round_trip_witness :
    (0:ℚ) < 13/10 ∧ (0:ℚ) < 800 ∧
    MandelbrotUtils.complexToPixel
        (MandelbrotUtils.pixelToComplex 100 200 ⟨-3/5, 0, 13/10, 800, 800⟩)
        ⟨-3/5, 0, 13/10, 800, 800⟩ = (100, 200) :=
  ⟨by norm_num, by norm_num,
   (pixel_complex_round_trip 100 200 ⟨-3/5, 0, 13/10, 800, 800⟩
     (by norm_num) (by norm_num) (by norm_num)).1⟩

/-- C3 fails on the code: worker results carry no request id, every
registered message listener fires on every result, and a stale listener's
early-return path leaves it registered.  Issue request A (id 1), then request
B (id 2) while A is computing: when A's (superseded) result arrives, A's own
listener returns early (1 ≠ 2) but B's listener — whose captured id 2 equals
the counter — blits A's buffer and unregisters; when B's result then arrives,
no remaining listener matches, so the display ends up showing A's stale
parameters, not B's.  The two issues do hand out the strictly increasing ids
1 and 2 (final counter 2), but a stale result is applied to the display. -/
theorem stale_result_applied :
    Canvas.run ⟨0, [], none⟩
      [.issue ⟨100, 100, 0, 0, 1, 100⟩, .issue ⟨200, 200, 0, 0, 1, 100⟩,
       .arrive ⟨100, 100, 0, 0, 1, 100⟩, .arrive ⟨200, 200, 0, 0, 1, 100⟩]
      = ⟨2, [1], some ⟨100, 100, 0, 0, 1, 100⟩⟩
    ∧ (⟨100, 100, 0, 0, 1, 100⟩ : Canvas.RenderRequest) ≠ ⟨200, 200, 0, 0, 1, 100⟩ := by
  constructor
  · rfl
  · intro h
    simp only [Canvas.RenderRequest.mk.injEq] at h
    norm_num at h

/-- C7: after every effective zoom the budget equals
`round(min(200 + 100*log10(newZoom), 2000) / 50) * 50`; `jsRound (x/50) * 50`
is `x` rounded to the nearest multiple of 50 (within 25, and divisible by 50);
and the budget is monotone in the zoom on `[0.5, 1e12]`. -/
theorem iteration_budget_formula_and_monotone :
    (∀ (s : Scene1.ControllerState) (px py f : ℚ),
        max (1/2) (min (s.zoom * f) Scene1.MAX_ZOOM) ≠ s.zoom →
        (Scene1.handleZoom s px py f).maxIterations
          = jsRound (min (200 + Real.logb 10
              ((max (1/2) (min (s.zoom * f) Scene1.MAX_ZOOM) : ℚ) : ℝ) * 100) 2000 / 50) * 50)
    ∧ (∀ x : ℝ, (50:ℤ) ∣ jsRound (x / 50) * 50
        ∧ |((jsRound (x / 50) * 50 : ℤ) : ℝ) - x| ≤ 25)
    ∧ (∀ z1 z2 : ℚ, 1/2 ≤ z1 → z1 ≤ z2 → z2 ≤ 10^12 →
        Scene1.iterationBudget z1 ≤ Scene1.iterationBudget z2) := by
  refine ⟨?_, ?_, ?_⟩
  · intro s px py f hne
    simp only [Scene1.handleZoom]
    rw [if_neg hne]
    rfl
  · intro x
    constructor
    · exact dvd_mul_left 50 (jsRound (x / 50))
    · have h1 : (jsRound (x / 50) : ℝ) ≤ x / 50 + 1/2 := Int.floor_le _
      have h2 : x / 50 + 1/2 - 1 < (jsRound (x / 50) : ℝ) := Int.sub_one_lt_floor _
      rw [abs_le]
      push_cast
      constructor <;> nlinarith
  · intro z1 z2 h1 h2 h3
    have hz1 : (0:ℝ) < (z1 : ℝ) := by
      have h1r : ((1/2 : ℚ) : ℝ) ≤ (z1 : ℝ) := by exact_mod_cast h1
      norm_num at h1r
      linarith
    have hlog : Real.logb 10 (z1 : ℝ) ≤ Real.logb 10 (z2 : ℝ) :=
      Real.logb_le_logb_of_le (by norm_num) hz1 (by exact_mod_cast h2)
    unfold Scene1.iterationBudget jsRound
    have hmin : min (200 + Real.logb 10 (z1 : ℝ) * 100) 2000 / 50 + 1/2
        ≤ min (200 + Real.logb 10 (z2 : ℝ) * 100) 2000 / 50 + 1/2 := by
      have := min_le_min (by linarith :
        200 + Real.logb 10 (z1 : ℝ) * 100 ≤ 200 + Real.logb 10 (z2 : ℝ) * 100)
        (le_refl (2000 : ℝ))
      linarith
    exact mul_le_mul_of_nonneg_right (Int.floor_le_floor hmin) (by norm_num)

/-- Witness for C7 at concrete inputs: an effective zoom gesture (factor 10
from zoom 1), and the budget monotonicity instance `1 ≤ 100`. -/
theorem iteration_budget_witness :
    max (1/2) (min ((1:ℚ) * 10) Scene1.MAX_ZOOM) ≠ (1:ℚ)
    ∧ (Scene1.handleZoom ⟨-1/2, 0, 1, 200⟩ 0 0 10).maxIterations
        = jsRound (min (200 + Real.logb 10
            ((max (1/2) (min ((1:ℚ) * 10) Scene1.MAX_ZOOM) : ℚ) : ℝ) * 100) 2000 / 50) * 50
    ∧ (1:ℚ)/2 ≤ 1 ∧ (1:ℚ) ≤ 100 ∧ (100:ℚ) ≤ 10^12
    ∧ Scene1.iterationBudget 1 ≤ Scene1.iterationBudget 100 := by
  refine ⟨by norm_num [Scene1.MAX_ZOOM],
    iteration_budget_formula_and_monotone.1 ⟨-1/2, 0, 1, 200⟩ 0 0 10
      (by norm_num [Scene1.MAX_ZOOM]),
    by norm_num, by norm_num, by norm_num,
    iteration_budget_formula_and_monotone.2.2 1 100 (by norm_num) (by norm_num)
      (by norm_num)⟩

/-- A pass of the loop body reports an escape only when the squared magnitude
at the escape check exceeds 4. -/
theorem loopStep_escaped_gt (cR cI : ℚ) (s : Mandelbrot.LoopState) (i : ℕ) (m : ℚ)
    (h : Mandelbrot.loopStep cR cI s = .escapedAt i m) : 4 < m := by
  simp only [Mandelbrot.loopStep] at h
  split_ifs at h with h1 h2 h3
  cases h
  exact h1

/-- The escape loop reports an escape only with squared magnitude above 4. -/
theorem loopGo_escape_gt (cR cI : ℚ) :
    ∀ (fuel : ℕ) (s : Mandelbrot.LoopState) (i : ℕ) (m : ℚ),
      Mandelbrot.loopGo cR cI fuel s = some (i, m) → 4 < m := by
  intro fuel
  induction fuel with
  | zero => intro s i m h; simp [Mandelbrot.loopGo] at h
  | succ n ih =>
    intro s i m h
    rw [Mandelbrot.loopGo] at h
    cases hstep : Mandelbrot.loopStep cR cI s with
    | continueWith s' =>
      rw [hstep] at h
      exact ih s' i m h
    | escapedAt j q =>
      rw [hstep] at h
      simp only [Option.some.injEq, Prod.mk.injEq] at h
      obtain ⟨rfl, rfl⟩ := h
      exact loopStep_escaped_gt cR cI s _ _ hstep
    | cycleFound =>
      rw [hstep] at h
      simp at h

/-- An `Escaped` outcome of the evaluator has squared magnitude above 4. -/
theorem calcEscape_escape_gt (cR cI : ℚ) (M i : ℕ) (m : ℚ)
    (h : Mandelbrot.calcEscape cR cI M = some (i, m)) : 4 < m := by
  rw [Mandelbrot.calcEscape] at h
  split_ifs at h with hint
  exact loopGo_escape_gt cR cI M Mandelbrot.initState i m h

/-- C4: a point in the main cardioid or the period-2 bulb is classified
`Bounded` by the interior shortcut (value `maxIterations`, the loop is never
entered) and the colorer maps that outcome to black. -/
theorem interior_shortcut_black (x y : ℚ) (M : ℕ)
    (h : Mandelbrot.inCardioid x y ∨ Mandelbrot.inPeriod2Bulb x y) :
    Mandelbrot.calcEscape x y M = none
    ∧ Mandelbrot.calculateMandelbrot x y M = (M : ℝ)
    ∧ Mandelbrot.iterationToColor (Mandelbrot.calculateMandelbrot x y M) (M : ℝ)
        = (0, 0, 0) := by
  have h1 : Mandelbrot.calcEscape x y M = none := by
    rw [Mandelbrot.calcEscape, if_pos h]
  have h2 : Mandelbrot.calculateMandelbrot x y M = (M : ℝ) := by
    rw [Mandelbrot.calculateMandelbrot, h1]
  refine ⟨h1, h2, ?_⟩
  rw [h2, Mandelbrot.iterationToColor, if_pos le_rfl]

/-- Witness for C4 at a concrete input: `c = (0, 0)` is inside the cardioid,
the evaluator returns `Bounded` for budget 200, and the color is black. -/
theorem interior_shortcut_black_witness :
    (Mandelbrot.inCardioid 0 0 ∨ Mandelbrot.inPeriod2Bulb 0 0)
    ∧ Mandelbrot.calcEscape 0 0 200 = none
    ∧ Mandelbrot.calculateMandelbrot 0 0 200 = ((200:ℕ) : ℝ)
    ∧ Mandelbrot.iterationToColor (Mandelbrot.calculateMandelbrot 0 0 200) ((200:ℕ) : ℝ)
        = (0, 0, 0) := by
  have h : Mandelbrot.inCardioid 0 0 ∨ Mandelbrot.inPeriod2Bulb 0 0 :=
    Or.inl (by norm_num [Mandelbrot.inCardioid])
  obtain ⟨h1, h2, h3⟩ := interior_shortcut_black 0 0 200 h
  exact ⟨h, h1, h2, h3⟩

/-- C5 (amended): an `Escaped` outcome carries the smooth value
`iteration + 1 - log(log|z|)/log 2`; this value is nonnegative whenever the
squared magnitude at the escape check is at most `e⁴` (equivalently
`|z| ≤ e²`), but for escapes at larger magnitude it can be negative. -/
theorem escaped_value_nonneg_of_moderate (cR cI : ℚ) (M i : ℕ) (m : ℚ)
    (h : Mandelbrot.calcEscape cR cI M = some (i, m))
    (hm : (m : ℝ) ≤ Real.exp 4) :
    Mandelbrot.calculateMandelbrot cR cI M = Mandelbrot.smoothValue i m
    ∧ 0 ≤ Mandelbrot.smoothValue i m := by
  have h4 : (4:ℝ) < (m : ℝ) := by exact_mod_cast calcEscape_escape_gt cR cI M i m h
  constructor
  · rw [Mandelbrot.calculateMandelbrot, h]
  · rw [Mandelbrot.smoothValue]
    have hs2 : 2 < Real.sqrt (m : ℝ) := by
      have h24 : (2:ℝ) = Real.sqrt 4 := by
        rw [show (4:ℝ) = 2^2 by norm_num, Real.sqrt_sq (by norm_num)]
      rw [h24]
      exact Real.sqrt_lt_sqrt (by norm_num) h4
    have hsle : Real.sqrt (m : ℝ) ≤ Real.exp 2 := by
      have he : Real.exp 4 = (Real.exp 2)^2 := by
        rw [sq, ← Real.exp_add]; norm_num
      calc Real.sqrt (m : ℝ) ≤ Real.sqrt (Real.exp 4) := Real.sqrt_le_sqrt hm
        _ = Real.exp 2 := by rw [he, Real.sqrt_sq (Real.exp_pos 2).le]
    have hlogs_pos : 0 < Real.log (Real.sqrt (m : ℝ)) := Real.log_pos (by linarith)
    have hlogs_le : Real.log (Real.sqrt (m : ℝ)) ≤ 2 := by
      calc Real.log (Real.sqrt (m : ℝ)) ≤ Real.log (Real.exp 2) :=
            Real.log_le_log (by linarith) hsle
        _ = 2 := Real.log_exp 2
    have hlog2 : (0:ℝ) < Real.log 2 := Real.log_pos (by norm_num)
    have hX : Real.log (Real.log (Real.sqrt (m : ℝ))) / Real.log 2 ≤ 1 := by
      rw [div_le_one hlog2]
      exact Real.log_le_log hlogs_pos hlogs_le
    have hi : (0:ℝ) ≤ (i:ℝ) := Nat.cast_nonneg i
    linarith

/-- Witness for C5 (amended) at a concrete input: `c = (3, 0)` escapes at
iteration 1 with squared magnitude `9 ≤ e⁴` and nonnegative smooth value. -/
theorem escaped_value_nonneg_witness :
    Mandelbrot.calcEscape 3 0 5 = some (1, 9)
    ∧ ((9:ℚ) : ℝ) ≤ Real.exp 4
    ∧ 0 ≤ Mandelbrot.smoothValue 1 9 := by
  have h1 : Mandelbrot.calcEscape 3 0 5 = some (1, 9) := by
    norm_num [Mandelbrot.calcEscape, Mandelbrot.inCardioid, Mandelbrot.inPeriod2Bulb,
      Mandelbrot.loopGo, Mandelbrot.loopStep, Mandelbrot.initState]
  have h2 : ((9:ℚ) : ℝ) ≤ Real.exp 4 := by
    have he : Real.exp 4 = (Real.exp 2)^2 := by rw [sq, ← Real.exp_add]; norm_num
    have h3 : (3:ℝ) ≤ Real.exp 2 := by
      have := Real.add_one_le_exp (2:ℝ)
      linarith
    have h9 : (9:ℝ) ≤ (Real.exp 2)^2 := by nlinarith
    rw [he]
    push_cast
    linarith
  exact ⟨h1, h2, (escaped_value_nonneg_of_moderate 3 0 5 1 9 h1 h2).2⟩

/-- Counterexample to C5 as stated: at `c = (10^8, 0)` with budget 2 the
evaluator produces an `Escaped` outcome (iteration 1, squared magnitude
`10^16`) whose continuous value `2 - log(log(10^8))/log 2` is negative. -/
theorem escaped_value_negative :
    Mandelbrot.calcEscape (10^8) 0 2 = some (1, 10^16)
    ∧ Mandelbrot.calculateMandelbrot (10^8) 0 2 < 0 := by
  have h1 : Mandelbrot.calcEscape (10^8) 0 2 = some (1, 10^16) := by
    norm_num [Mandelbrot.calcEscape, Mandelbrot.inCardioid, Mandelbrot.inPeriod2Bulb,
      Mandelbrot.loopGo, Mandelbrot.loopStep, Mandelbrot.initState]
  refine ⟨h1, ?_⟩
  have h2 : Mandelbrot.calculateMandelbrot (10^8) 0 2 = Mandelbrot.smoothValue 1 (10^16) := by
    rw [Mandelbrot.calculateMandelbrot, h1]
  rw [h2, Mandelbrot.smoothValue]
  have hsq : Real.sqrt ((10^16 : ℚ) : ℝ) = 10^8 := by
    rw [show ((10^16 : ℚ) : ℝ) = ((10:ℝ)^8)^2 by norm_num]
    exact Real.sqrt_sq (by positivity)
  rw [hsq]
  have hexp4 : Real.exp 4 < 10^8 := by
    have h41 : Real.exp 4 = (Real.exp 1)^4 := by
      rw [← Real.exp_nat_mul]; norm_num
    have hd9 := Real.exp_one_lt_d9
    have hp : (Real.exp 1)^4 < (2.7182818286:ℝ)^4 :=
      pow_lt_pow_left₀ hd9 (Real.exp_pos 1).le (by norm_num)
    rw [h41]
    nlinarith [hp]
  have hlog8 : (4:ℝ) < Real.log (10^8) :=
    (Real.lt_log_iff_exp_lt (by positivity)).mpr hexp4
  have hll : Real.log 4 < Real.log (Real.log (10^8)) :=
    Real.log_lt_log (by norm_num) hlog8
  have hlog4 : Real.log 4 = 2 * Real.log 2 := by
    rw [show (4:ℝ) = 2^2 by norm_num, Real.log_pow]
    push_cast
    ring
  have hlog2 : (0:ℝ) < Real.log 2 := Real.log_pos (by norm_num)
  have hX : 2 < Real.log (Real.log (10^8)) / Real.log 2 := by
    rw [lt_div_iff₀ hlog2]
    linarith
  push_cast
  linarith

/-- Characterization of a continuing pass: the orbit advances one step, the
iteration count increments, and either the period counter exceeded 20 (so it
resets and the snapshot is refreshed to the new iterate) or it just
increments with the snapshot unchanged. -/
theorem loopStep_continue_char (cR cI : ℚ) (s s' : Mandelbrot.LoopState)
    (h : Mandelbrot.loopStep cR cI s = .continueWith s') :
    s'.zReal = s.zReal * s.zReal - s.zImag * s.zImag + cR
    ∧ s'.zImag = 2 * s.zReal * s.zImag + cI
    ∧ s'.iteration = s.iteration + 1
    ∧ ((20 < s.period + 1 ∧ s'.period = 0
          ∧ s'.oldReal = s'.zReal ∧ s'.oldImag = s'.zImag)
        ∨ (s.period + 1 ≤ 20 ∧ s'.period = s.period + 1
          ∧ s'.oldReal = s.oldReal ∧ s'.oldImag = s.oldImag)) := by
  simp only [Mandelbrot.loopStep] at h
  split_ifs at h with h1 h2 h3
  · cases h
    exact ⟨rfl, rfl, rfl, Or.inl ⟨h3, rfl, rfl, rfl⟩⟩
  · cases h
    exact ⟨rfl, rfl, rfl, Or.inr ⟨by omega, rfl, rfl, rfl⟩⟩

/-- Running the loop after `n` continuing passes is the same as running it
from the state those passes produced. -/
theorem runContinue_loopGo (cR cI : ℚ) :
    ∀ (n : ℕ) (s : Mandelbrot.LoopState),
      Mandelbrot.runContinue cR cI n = some s →
      ∀ fuel, Mandelbrot.loopGo cR cI (n + fuel) Mandelbrot.initState
        = Mandelbrot.loopGo cR cI fuel s := by
  intro n
  induction n with
  | zero =>
    intro s h fuel
    rw [Mandelbrot.runContinue] at h
    simp only [Option.some.injEq] at h
    subst h
    rw [Nat.zero_add]
  | succ k ih =>
    intro s h fuel
    rw [Mandelbrot.runContinue] at h
    cases hk : Mandelbrot.runContinue cR cI k with
    | none => rw [hk] at h; simp at h
    | some s0 =>
      simp only [hk] at h
      cases hstep : Mandelbrot.loopStep cR cI s0 with
      | continueWith s1 =>
        rw [hstep] at h
        simp only [Option.some.injEq] at h
        subst h
        have e1 : k + 1 + fuel = k + (fuel + 1) := by omega
        rw [e1, ih s0 hk (fuel + 1), Mandelbrot.loopGo, hstep]
      | escapedAt j q => rw [hstep] at h; simp at h
      | cycleFound => rw [hstep] at h; simp at h

/-- C6 (amended): the periodicity snapshot is refreshed every 21 loop passes
(the counter resets once it exceeds 20), not every 20: after `n` continuing
passes the loop state holds orbit value `z_n`, period counter `n mod 21` and
snapshot `z_{21·⌊n/21⌋}`; and when an updated iterate exactly equals the
snapshot the evaluator returns `Bounded` immediately, before exhausting the
iteration budget. -/
theorem periodicity_snapshot_cadence_and_detection (cR cI : ℚ) :
    (∀ (n : ℕ) (s : Mandelbrot.LoopState),
        Mandelbrot.runContinue cR cI n = some s →
        s.iteration = n
        ∧ (s.zReal, s.zImag) = Mandelbrot.zIter cR cI n
        ∧ s.period = n % 21
        ∧ (s.oldReal, s.oldImag) = Mandelbrot.zIter cR cI (21 * (n / 21)))
    ∧ (∀ (n M : ℕ) (s : Mandelbrot.LoopState),
        Mandelbrot.runContinue cR cI n = some s →
        Mandelbrot.loopStep cR cI s = .cycleFound →
        n < M → Mandelbrot.calcEscape cR cI M = none) := by
  constructor
  · intro n
    induction n with
    | zero =>
      intro s h
      rw [Mandelbrot.runContinue] at h
      simp only [Option.some.injEq] at h
      subst h
      exact ⟨rfl, rfl, rfl, rfl⟩
    | succ k ih =>
      intro s h
      rw [Mandelbrot.runContinue] at h
      cases hk : Mandelbrot.runContinue cR cI k with
      | none => rw [hk] at h; simp at h
      | some s0 =>
        simp only [hk] at h
        obtain ⟨hit, hz, hp, hold⟩ := ih s0 hk
        have hz1 : s0.zReal = (Mandelbrot.zIter cR cI k).1 := congrArg Prod.fst hz
        have hz2 : s0.zImag = (Mandelbrot.zIter cR cI k).2 := congrArg Prod.snd hz
        cases hstep : Mandelbrot.loopStep cR cI s0 with
        | continueWith s1 =>
          rw [hstep] at h
          simp only [Option.some.injEq] at h
          subst h
          obtain ⟨e1, e2, e3, hcase⟩ := loopStep_continue_char cR cI s0 s1 hstep
          have hzz : (s1.zReal, s1.zImag) = Mandelbrot.zIter cR cI (k + 1) := by
            rw [Mandelbrot.zIter, e1, e2, hz1, hz2]
          refine ⟨by omega, hzz, ?_, ?_⟩
          · rcases hcase with ⟨hgt, hper, _, _⟩ | ⟨hle, hper, _, _⟩
            · rw [hper]; omega
            · rw [hper]; omega
          · rcases hcase with ⟨hgt, _, ho1, ho2⟩ | ⟨hle, _, ho1, ho2⟩
            · have hdvd : 21 * ((k + 1) / 21) = k + 1 := by omega
              rw [hdvd, ho1, ho2]
              exact hzz
            · have hdiv : (k + 1) / 21 = k / 21 := by omega
              rw [hdiv, ho1, ho2]
              exact hold
        | escapedAt j q => rw [hstep] at h; simp at h
        | cycleFound => rw [hstep] at h; simp at h
  · intro n M s hn hcyc hlt
    rw [Mandelbrot.calcEscape]
    split_ifs with hint
    · rfl
    · obtain ⟨t, ht⟩ : ∃ t, M - n = t + 1 := ⟨M - n - 1, by omega⟩
      have hM : M = n + (t + 1) := by omega
      rw [hM, runContinue_loopGo cR cI n s hn (t + 1), Mandelbrot.loopGo, hcyc]

/-- Counterexample to C6 as stated (snapshot "every 20 iterations"): at
`c = (-2, 0)` the snapshot after 20 continuing loop passes is still the
initial `(0, 0)`, while the 20th orbit iterate is `(2, 0)` — a snapshot taken
every 20 iterations would hold `(2, 0)` at that point.  (The refresh happens
at pass 21: the counter resets only once it exceeds 20.) -/
theorem snapshot_not_every_twenty :
    Mandelbrot.runContinue (-2) 0 20 = some ⟨2, 0, 0, 0, 20, 20⟩
    ∧ Mandelbrot.zIter (-2) 0 20 = (2, 0)
    ∧ ((0:ℚ), (0:ℚ)) ≠ ((2:ℚ), (0:ℚ)) := by
  refine ⟨?_, ?_, ?_⟩
  · norm_num [Mandelbrot.runContinue, Mandelbrot.loopStep, Mandelbrot.initState]
  · norm_num [Mandelbrot.zIter]
  · simp [Prod.ext_iff]

/-- Witness for C6 (amended) at `c = (-2, 0)`: after 21 passes the snapshot
equals `z_21 = (2, 0)`, the 22nd pass detects the cycle, and with budget 25
(`21 < 25`, so the budget is not exhausted) the evaluator returns `Bounded`. -/
theorem periodicity_witness :
    Mandelbrot.runContinue (-2) 0 21 = some ⟨2, 0, 2, 0, 0, 21⟩
    ∧ ((2:ℚ), (0:ℚ)) = Mandelbrot.zIter (-2) 0 (21 * (21 / 21))
    ∧ Mandelbrot.loopStep (-2) 0 ⟨2, 0, 2, 0, 0, 21⟩ = .cycleFound
    ∧ (21:ℕ) < 25
    ∧ Mandelbrot.calcEscape (-2) 0 25 = none := by
  have h1 : Mandelbrot.runContinue (-2) 0 21 = some ⟨2, 0, 2, 0, 0, 21⟩ := by
    norm_num [Mandelbrot.runContinue, Mandelbrot.loopStep, Mandelbrot.initState]
  have h2 : Mandelbrot.loopStep (-2) 0 ⟨2, 0, 2, 0, 0, 21⟩ = .cycleFound := by
    norm_num [Mandelbrot.loopStep]
  refine ⟨h1, ?_, h2, by norm_num, ?_⟩
  · exact ((periodicity_snapshot_cadence_and_detection (-2) 0).1 21 _ h1).2.2.2
  · exact (periodicity_snapshot_cadence_and_detection (-2) 0).2 21 25 _ h1 h2
      (by norm_num)

/-- The JavaScript remainder by 1 is the identity on `[0, 1)`. -/
theorem jsMod_eq_self {x : ℝ} (h0 : 0 ≤ x) (h1 : x < 1) : jsMod x 1 = x := by
  rw [jsMod, jsTrunc, div_one, if_neg (not_lt.mpr h0),
    Int.floor_eq_zero_iff.mpr ⟨h0, h1⟩]
  simp

/-- Numeric bounds for the smooth value of the escape at iteration 1 with
squared magnitude 20 (the pixel `(-2, -4)`): it lies in `[7/6, 2)`. -/
theorem smoothValue_bounds_20 :
    7/6 ≤ Mandelbrot.smoothValue 1 20 ∧ Mandelbrot.smoothValue 1 20 < 2 := by
  rw [Mandelbrot.smoothValue]
  rw [show ((20:ℚ):ℝ) = 20 by norm_num]
  rw [Real.log_sqrt (by norm_num : (0:ℝ) ≤ 20)]
  have hub : Real.log 20 < 3 := by
    rw [Real.log_lt_iff_lt_exp (by norm_num)]
    have h3 : Real.exp 3 = (Real.exp 1)^3 := by
      rw [← Real.exp_nat_mul]; norm_num
    have hd := Real.exp_one_gt_d9
    have hp : (2.7182818283:ℝ)^3 < (Real.exp 1)^3 :=
      pow_lt_pow_left₀ hd (by norm_num) (by norm_num)
    have h20 : (20:ℝ) < (2.7182818283:ℝ)^3 := by norm_num
    rw [h3]
    linarith
  have hlb : (2.772:ℝ) < Real.log 20 := by
    have h16 : Real.log 16 ≤ Real.log 20 := Real.log_le_log (by norm_num) (by norm_num)
    have h16e : Real.log 16 = 4 * Real.log 2 := by
      rw [show (16:ℝ) = 2^4 by norm_num, Real.log_pow]
      push_cast
      ring
    have hd := Real.log_two_gt_d9
    nlinarith
  have hBpos : 0 < Real.log (Real.log 20 / 2) := Real.log_pos (by linarith)
  have hBub : Real.log (Real.log 20 / 2) < Real.log (3/2) :=
    Real.log_lt_log (by linarith) (by linarith)
  have h32 : Real.log (3/2) ≤ 5/6 * Real.log 2 := by
    have e1 : Real.log ((3/2:ℝ)^6) = 6 * Real.log (3/2) := by
      rw [Real.log_pow]; push_cast; ring
    have e2 : Real.log ((2:ℝ)^5) = 5 * Real.log 2 := by
      rw [Real.log_pow]; push_cast; ring
    have hle : Real.log ((3/2:ℝ)^6) ≤ Real.log ((2:ℝ)^5) :=
      Real.log_le_log (by positivity) (by norm_num)
    rw [e1, e2] at hle
    linarith
  have hlog2 : (0:ℝ) < Real.log 2 := Real.log_pos (by norm_num)
  have hXpos : 0 < Real.log (Real.log 20 / 2) / Real.log 2 := div_pos hBpos hlog2
  have hXle : Real.log (Real.log 20 / 2) / Real.log 2 ≤ 5/6 := by
    rw [div_le_iff₀ hlog2]
    linarith
  push_cast
  constructor <;> linarith

/-- For a smooth value in `[7/6, 2)` and budget 25, the rainbow colorer lands
in the last hue sextant and its red byte is at least 1 (so not black). -/
theorem colorer_red_channel_pos (v : ℝ) (h1 : 7/6 ≤ v) (h2 : v < 2) :
    1 ≤ (Mandelbrot.iterationToColor v 25).1 := by
  rw [Mandelbrot.iterationToColor, if_neg (by linarith : ¬ (25:ℝ) ≤ v)]
  dsimp only
  have hmod : jsMod (3/5 + v/25 * 5) 1 = 3/5 + v/25 * 5 :=
    jsMod_eq_self (by linarith) (by linarith)
  rw [hmod]
  rw [if_neg (by nlinarith), if_neg (by nlinarith), if_neg (by nlinarith),
    if_neg (by nlinarith), if_neg (by nlinarith)]
  dsimp only
  have hw0 : 0 ≤ (1 - v/25) ^ ((2:ℝ)/5) := Real.rpow_nonneg (by linarith) _
  have hw1 : (1 - v/25) ^ ((2:ℝ)/5) ≤ 1 :=
    Real.rpow_le_one (by linarith) (by linarith) (by norm_num)
  have hsin0 := Real.neg_one_le_sin (v/25 * Real.pi * 8)
  have hsin1 := Real.sin_le_one (v/25 * Real.pi * 8)
  have hL0 : (3/20:ℝ) ≤ 3/20 + 11/20 * (1 - (1 - v/25) ^ ((2:ℝ)/5)) := by nlinarith
  have hL1 : 3/20 + 11/20 * (1 - (1 - v/25) ^ ((2:ℝ)/5)) ≤ (7/10:ℝ) := by nlinarith
  have habs : |2 * (3/20 + 11/20 * (1 - (1 - v/25) ^ ((2:ℝ)/5))) - 1| ≤ 1 :=
    abs_le.mpr ⟨by linarith, by linarith⟩
  have hC0 : 0 ≤ (1 - |2 * (3/20 + 11/20 * (1 - (1 - v/25) ^ ((2:ℝ)/5))) - 1|)
      * (4/5 + 1/5 * Real.sin (v/25 * Real.pi * 8)) :=
    mul_nonneg (by linarith) (by linarith)
  rw [Int.le_floor]
  push_cast
  nlinarith

/-- Byte 4 (red channel of the pixel in row 1) of the two renderers on the
1×2 frame centered at the origin with zoom 1 and budget 25: the symmetric
renderer mirrors the color computed for the row-0 sample `(-2, -4)` into
row 1, while the full scan colors row 1 from its own sample `(-2, 0)`. -/
theorem render_buffers_at_byte_four :
    Mandelbrot.renderMandelbrot 1 2 0 0 1 25 4
      = clampByte (Mandelbrot.iterationToColor
          (Mandelbrot.calculateMandelbrot (-2) (-4) 25) ((25:ℕ):ℝ)).1
    ∧ Mandelbrot.renderFullScan 1 2 0 0 1 25 4
      = clampByte (Mandelbrot.iterationToColor
          (Mandelbrot.calculateMandelbrot (-2) 0 25) ((25:ℕ):ℝ)).1 := by
  constructor
  · rw [Mandelbrot.renderMandelbrot]
    norm_num [foldRange, Mandelbrot.writePixel, min_def]
  · rw [Mandelbrot.renderFullScan]
    norm_num [foldRange, Mandelbrot.writePixel, min_def]

/-- C2 fails on the code: on the 1×2 frame centered at `(0, 0)` with zoom 1
and budget 25, the symmetry-optimized renderer writes at row 1 the (non-black)
color of the complex sample `(-2, -4)` mirrored from row 0, while the full
scan colors row 1 from its own sample `(-2, 0)`, which is bounded and black —
the mirror row `height-1-py` does not hold the reflection of row `py`'s
sample, because the pixel grid `py - height/2` is not symmetric about the
real axis. -/
theorem symmetry_mirror_bug :
    Mandelbrot.renderMandelbrot 1 2 0 0 1 25 4
      ≠ Mandelbrot.renderFullScan 1 2 0 0 1 25 4 := by
  obtain ⟨hopt, hfull⟩ := render_buffers_at_byte_four
  rw [hopt, hfull]
  have h1 : Mandelbrot.calcEscape (-2) (-4) 25 = some (1, 20) := by
    norm_num [Mandelbrot.calcEscape, Mandelbrot.inCardioid, Mandelbrot.inPeriod2Bulb,
      Mandelbrot.loopGo, Mandelbrot.loopStep, Mandelbrot.initState]
  have h2 : Mandelbrot.calculateMandelbrot (-2) (-4) 25 = Mandelbrot.smoothValue 1 20 := by
    rw [Mandelbrot.calculateMandelbrot, h1]
  have h3 : Mandelbrot.calcEscape (-2) 0 25 = none := by
    norm_num [Mandelbrot.calcEscape, Mandelbrot.inCardioid, Mandelbrot.inPeriod2Bulb,
      Mandelbrot.loopGo, Mandelbrot.loopStep, Mandelbrot.initState]
  have h4 : Mandelbrot.calculateMandelbrot (-2) 0 25 = ((25:ℕ):ℝ) := by
    rw [Mandelbrot.calculateMandelbrot, h3]
  have h5 : Mandelbrot.iterationToColor ((25:ℕ):ℝ) ((25:ℕ):ℝ) = (0, 0, 0) := by
    rw [Mandelbrot.iterationToColor, if_pos le_rfl]
  obtain ⟨hb1, hb2⟩ := smoothValue_bounds_20
  have h6 : 1 ≤ (Mandelbrot.iterationToColor (Mandelbrot.smoothValue 1 20) 25).1 :=
    colorer_red_channel_pos _ hb1 hb2
  rw [h2, h4, h5]
  rw [show ((25:ℕ):ℝ) = (25:ℝ) by norm_num]
  have h7 : 1 ≤ clampByte (Mandelbrot.iterationToColor (Mandelbrot.smoothValue 1 20) 25).1 := by
    rw [clampByte]
    have hmin : (1:ℤ) ≤ min 255 (Mandelbrot.iterationToColor (Mandelbrot.smoothValue 1 20) 25).1 :=
      le_min (by norm_num) h6
    exact le_trans hmin (le_max_right 0 _)
  have h8 : clampByte ((0:ℤ), (0:ℤ), (0:ℤ)).1 = 0 := rfl
  rw [h8]
  omega

